import Mathlib

/-!
Verification development for the bridge-knowledge-platform document-to-graph
pipeline.  The frontend behaviour (upload list, websocket status subscriber,
task cancellation, export-format selection, file-size formatting) is embedded
from the SvelteKit sources under `bridge-knowledge-platform/frontend`.  The
backend core (Ingestion Tracker, Token Budgeter, Fallback Embedder) is not
part of the source tree; those components are modelled from the specification
text, as marked on each definition.
-/

/-! ## Ingestion Tracker (modelled from the spec) -/

/-- Modelled from the spec: processing stages of a `ProcessingRecord`
(spec section 3).  The backend tracker (`backend/app/services`) is not in the
source tree. -/
inductive Stage
  | queued
  | extracting
  | chunking
  | embedding
  | committing
  | completed
  | failed
deriving DecidableEq, Repr

/-- Position of a stage in the enum order of the spec. -/
def Stage.idx : Stage → ℕ
  | .queued => 0
  | .extracting => 1
  | .chunking => 2
  | .embedding => 3
  | .committing => 4
  | .completed => 5
  | .failed => 6

/-- Terminal stages: `Completed` and `Failed`. -/
def Stage.isTerminal : Stage → Bool
  | .completed => true
  | .failed => true
  | _ => false

/-- Modelled from the spec: one `ProcessingRecord` per document
(spec section 3).  Timestamps are omitted; no claim mentions them. -/
structure ProcessingRecord where
  documentId : String
  stage : Stage
  progress : ℕ
  attempt : ℕ
  errorDetail : Option String
deriving DecidableEq, Repr

/-- Modelled from the spec: tracker error kinds (spec sections 4.1 and 7). -/
inductive TrackerError
  | alreadyProcessing
  | invalidTransition
  | notFound
deriving DecidableEq, Repr

/-- Modelled from the spec: `start(documentId)` — fails with
`AlreadyProcessing` if a non-terminal record exists; otherwise creates a
record at stage `Queued`, attempt = previous+1, progress reset to 0
(spec section 4.1). -/
def Tracker.start (prev : Option ProcessingRecord) (docId : String) :
    Except TrackerError ProcessingRecord :=
  match prev with
  | some r =>
      if r.stage.isTerminal then
        .ok ⟨r.documentId, .queued, 0, r.attempt + 1, none⟩
      else
        .error .alreadyProcessing
  | none => .ok ⟨docId, .queued, 0, 1, none⟩

/-- Modelled from the spec: `advance(documentId, stage, progress)` — fails
with `InvalidTransition` when the requested stage violates the forward-order
invariant; enforces the declared data-model invariant on `progress`
(integer 0–100, non-decreasing within an attempt, spec section 3). -/
def Tracker.advance (r : ProcessingRecord) (toStage : Stage) (p : ℕ) :
    Except TrackerError ProcessingRecord :=
  if toStage ≠ Stage.failed ∧ r.stage.idx < toStage.idx ∧ r.progress ≤ p ∧ p ≤ 100 then
    .ok { r with stage := toStage, progress := p }
  else
    .error .invalidTransition

/-- Modelled from the spec: `fail(documentId, detail)` — unconditionally
valid from any non-terminal stage; sets `Failed` and records `errorDetail`
(spec section 4.1). -/
def Tracker.fail (r : ProcessingRecord) (detail : String) :
    Except TrackerError ProcessingRecord :=
  if r.stage.isTerminal then
    .error .invalidTransition
  else
    .ok { r with stage := .failed, errorDetail := some detail }

/-- An operation submitted to the tracker for one document. -/
inductive TrackerOp
  | start (docId : String)
  | advance (toStage : Stage) (p : ℕ)
  | fail (detail : String)
deriving DecidableEq, Repr

/-- Apply one tracker operation to the (optional) current record of a
document, yielding the updated record on success. -/
def Tracker.apply : TrackerOp → Option ProcessingRecord →
    Except TrackerError ProcessingRecord
  | .start d, prev => Tracker.start prev d
  | .advance toStage p, some r => Tracker.advance r toStage p
  | .fail d, some r => Tracker.fail r d
  | .advance _ _, none => .error .notFound
  | .fail _, none => .error .notFound

/-- The transition discipline asserted by the claim: strictly forward in the
enum order, or to `Failed`, or the retry edge `Failed → Queued`. -/
def claimAllowedTransition (s t : Stage) : Prop :=
  s.idx < t.idx ∨ t = Stage.failed ∨ (s = Stage.failed ∧ t = Stage.queued)

instance (s t : Stage) : Decidable (claimAllowedTransition s t) := by
  unfold claimAllowedTransition
  infer_instance

/-! ## Websocket file-status subscriber (vite.config.ts, upload page) -/

/-- Client-side upload list entry
(`UploadFile` interface, vite.config.ts upload page). -/
structure UploadFile where
  id : String
  clientSideId : String
  status : String
  progress : ℕ
  stage : Option String
  error : Option String
deriving DecidableEq, Repr

/-- Payload of a `file_status_update` websocket message
(`FileStatusMessage['payload']`, vite.config.ts upload page). -/
structure FileStatusPayload where
  file_id : String
  status : String
  progress : ℕ
  stage : Option String
  message : Option String
deriving DecidableEq, Repr

/-- JavaScript truthiness of an optional string: `undefined` and the empty
string are falsy. -/
def jsTruthy : Option String → Bool
  | none => false
  | some s => s ≠ ""

/-- The subscriber's update of one matching file entry
(`websocketMessages.subscribe` handler, vite.config.ts upload page):
assigns `status` and `progress` from the payload, keeps the old `stage`
when the payload's is falsy, sets `error` only when the payload reports
`failed` with a truthy `message`, and forces `progress` to 100 on
`completed`. -/
def applyFileStatus (f : UploadFile) (d : FileStatusPayload) : UploadFile :=
  let f1 : UploadFile :=
    { f with
      status := d.status
      progress := d.progress
      stage := if jsTruthy d.stage then d.stage else f.stage }
  let f2 : UploadFile :=
    if d.status = "failed" ∧ jsTruthy d.message then
      { f1 with error := d.message }
    else f1
  if d.status = "completed" then { f2 with progress := 100 } else f2

/-- The subscriber's effect on the whole file list: `files.find` locates the
first entry whose `id` equals the payload's `file_id` and mutates it in
place; other entries are untouched. -/
def applyFileStatusMessage : List UploadFile → FileStatusPayload →
    List UploadFile
  | [], _ => []
  | f :: fs, d =>
      if f.id = d.file_id then applyFileStatus f d :: fs
      else f :: applyFileStatusMessage fs d

/-! ## Task cancellation (monitor page) -/

/-- `ProcessingTask` interface of the monitor page
(monitor/+page.svelte lines 19–28). -/
structure ProcessingTask where
  id : String
  fileName : String
  status : String
  progress : ℕ
  errorMessage : Option String
  stage : String
deriving DecidableEq, Repr

/-- `cancelTask` of the monitor page: filters the task out of the list
(`tasks = tasks.filter(t => t.id !== taskId)`); no stage change, no
backend call. -/
def cancelTask (taskId : String) (tasks : List ProcessingTask) :
    List ProcessingTask :=
  tasks.filter (fun t => t.id ≠ taskId)

/-! ## Upload-page file admission (addFiles) -/

/-- A browser `File` as far as `addFiles` inspects it: `name`, `size`,
`type`. -/
structure JSFile where
  name : String
  size : ℕ
  type : String
deriving DecidableEq, Repr

/-- `allowedTypes` constant of the upload pages. -/
def allowedTypes : List String :=
  ["application/pdf",
   "application/msword",
   "application/vnd.openxmlformats-officedocument.wordprocessingml.document",
   "image/vnd.dxf",
   "application/dxf"]

/-- `maxFileSize` constant of the upload pages: 50 MB. -/
def maxFileSize : ℕ := 50 * 1024 * 1024

/-- One entry of the upload list as created by `addFiles` (random client id
omitted; no claim depends on it). -/
structure UploadEntry where
  file : JSFile
  status : String
  progress : ℕ
deriving DecidableEq, Repr

/-- `addFiles` of the upload pages (monitor/+page.svelte lines 426–456 and
vite.config.ts lines 73–106): per incoming file, reject unsupported types
(unless the lower-cased name ends in `.dxf`), reject files over
`maxFileSize`, skip files whose name and size both match an existing entry,
otherwise append a `pending` entry. -/
def addFiles (files : List UploadEntry) (newFiles : List JSFile) :
    List UploadEntry :=
  newFiles.foldl
    (fun fs file =>
      if !(allowedTypes.contains file.type
            || file.name.toLower.endsWith ".dxf") then fs
      else if maxFileSize < file.size then fs
      else if fs.any (fun e =>
          e.file.name == file.name && e.file.size == file.size) then fs
      else fs ++ [⟨file, "pending", 0⟩])
    files

/-- A sequence of `addFiles` calls starting from the initially empty upload
list. -/
def addFilesSeq (batches : List (List JSFile)) : List UploadEntry :=
  batches.foldl addFiles []

/-- Validity of one upload entry: allowed MIME type or `.dxf` name, and size
within the 50 MB bound. -/
def entryOk (e : UploadEntry) : Prop :=
  (allowedTypes.contains e.file.type
    || e.file.name.toLower.endsWith ".dxf") = true ∧
  e.file.size ≤ maxFileSize

/-- No two entries of the list carry files with both the same name and the
same size. -/
def noDupFiles (l : List UploadEntry) : Prop :=
  l.Pairwise (fun a b => ¬(a.file.name = b.file.name ∧ a.file.size = b.file.size))

/-! ## File-size formatting (monitor page vs graph page) -/

/-- Shared numeric part of both `formatFileSize` implementations for a
nonzero byte count: the source computes
`parseFloat((bytes / Math.pow(1024, i)).toFixed(2))` with
`i = Math.floor(Math.log(bytes) / Math.log(1024))`; floating point is
idealised as exact integer logarithm and half-up rational rounding to two
decimals, identically in both embedded implementations (the two sources are
textually identical here). -/
def fileSizeNumericPart (bytes : ℕ) : String :=
  let i := Nat.log 1024 bytes
  let d := 1024 ^ i
  let n := (200 * bytes + d) / (2 * d)
  let ip := n / 100
  let fr := n % 100
  if fr = 0 then toString ip
  else if fr % 10 = 0 then toString ip ++ "." ++ toString (fr / 10)
  else if fr < 10 then toString ip ++ ".0" ++ toString fr
  else toString ip ++ "." ++ toString fr

/-- Unit names of the monitor/upload page implementation
(monitor/+page.svelte lines 418–424): `['Bytes', 'KB', 'MB', 'GB']`. -/
def sizeUnitsMonitor : List String := ["Bytes", "KB", "MB", "GB"]

/-- Unit names of the graph page implementation
(graph/+page.svelte lines 276–282): `['B', 'KB', 'MB', 'GB']`. -/
def sizeUnitsGraph : List String := ["B", "KB", "MB", "GB"]

/-- `formatFileSize` of the monitor/upload page: `'0 Bytes'` for zero,
otherwise numeric part plus the unit at index `i` (JavaScript renders an
out-of-range index as `undefined`). -/
def formatFileSizeMonitor (bytes : ℕ) : String :=
  if bytes = 0 then "0 Bytes"
  else
    fileSizeNumericPart bytes ++ " " ++
      (sizeUnitsMonitor.getD (Nat.log 1024 bytes) "undefined")

/-- `formatFileSize` of the graph page: `'0 B'` for zero, otherwise numeric
part plus the unit at index `i`. -/
def formatFileSizeGraph (bytes : ℕ) : String :=
  if bytes = 0 then "0 B"
  else
    fileSizeNumericPart bytes ++ " " ++
      (sizeUnitsGraph.getD (Nat.log 1024 bytes) "undefined")

/-! ## Export page format selection -/

/-- One export format option (`formats` entries, export/+page.svelte). -/
structure ExportFormat where
  id : String
  name : String
deriving DecidableEq, Repr

/-- One export type with its format options (`exportTypes` entries). -/
structure ExportTypeInfo where
  id : String
  formats : List ExportFormat
deriving DecidableEq, Repr

/-- The `exportTypes` constant of the export page (icons and descriptions
omitted). -/
def exportTypes : List ExportTypeInfo :=
  [⟨"training_corpus", [⟨"jsonl", "JSONL"⟩, ⟨"csv", "CSV"⟩]⟩,
   ⟨"knowledge_graph", [⟨"neo4j", "Neo4j Dump"⟩, ⟨"json", "JSON"⟩]⟩]

/-- The TypeScript union type of `selectedExportType`:
`'training_corpus' | 'knowledge_graph'`. -/
inductive ExportType
  | training_corpus
  | knowledge_graph
deriving DecidableEq, Repr

/-- String value of the selected export type. -/
def ExportType.idStr : ExportType → String
  | .training_corpus => "training_corpus"
  | .knowledge_graph => "knowledge_graph"

/-- `getCurrentFormats` (export/+page.svelte lines 82–84):
`exportTypes.find(t => t.id === selectedExportType)?.formats || []`. -/
def getCurrentFormats (t : ExportType) : List ExportFormat :=
  ((exportTypes.find? (fun e => e.id == t.idStr)).map
    ExportTypeInfo.formats).getD []

/-- The reactive format-reset effect (export/+page.svelte lines 86–96):
when the current type offers formats and the selected one is not among
them, select the first offered format; when it offers none, select `''`. -/
def formatResetEffect (t : ExportType) (selectedFormat : String) : String :=
  let cur := getCurrentFormats t
  if cur.length > 0 then
    if !(cur.any (fun f => f.id == selectedFormat)) then
      (cur.headD ⟨"", ""⟩).id
    else selectedFormat
  else ""

/-! ## Token Budgeter (modelled from the spec) -/

/-- A text unit (sentence/paragraph granularity) as a list of tokens; the
spec treats tokenisation as a pure function `text -> count`. -/
abbrev TextUnit := List String

/-- Total token count of a list of token lists. -/
def tokensTotal (l : List TextUnit) : ℕ :=
  (l.map List.length).sum

/-- A packed chunk before carried context is attached: its token list and
the `truncated` flag. -/
structure PackedChunk where
  text : List String
  truncated : Bool
deriving DecidableEq, Repr

/-- Modelled from the spec: greedy packing of text units into chunks under
the effective text budget `B = C - reservedContextBudget` (spec section
4.2, steps 2 and 4).  Units are accumulated until adding the next unit
would exceed `B`; a single unit over the budget is hard-truncated at the
token boundary and the chunk is marked `truncated`. -/
def packUnits (B : ℕ) : List String → List TextUnit → List PackedChunk
  | acc, [] => if acc.isEmpty then [] else [⟨acc, false⟩]
  | acc, u :: us =>
      if B < u.length then
        (if acc.isEmpty then [] else [⟨acc, false⟩]) ++
          (⟨u.take B, true⟩ :: packUnits B [] us)
      else if B < acc.length + u.length then
        ⟨acc, false⟩ :: packUnits B u us
      else
        packUnits B (acc ++ u) us

/-- Modelled from the spec: FIFO eviction of carried-context entries,
dropping the oldest entries first until the summary fits the reserved
context budget (spec section 4.2, step 3). -/
def evictOldest (R : ℕ) : List TextUnit → List TextUnit
  | [] => []
  | e :: es => if R < tokensTotal (e :: es) then evictOldest R es else e :: es

/-- A chunk as emitted by the Budgeter: 0-based sequence, token list,
carried context (one summary entry per prior chunk, FIFO-evicted), and the
`truncated` flag (spec section 3, `Chunk`). -/
structure BudgetedChunk where
  sequence : ℕ
  text : List String
  carried : List TextUnit
  truncated : Bool
deriving DecidableEq, Repr

/-- Attach sequence numbers and carried context to packed chunks: chunk 0
carries nothing; chunk `k > 0` carries the FIFO-evicted summaries of chunks
`0..k-1`. -/
def attachContext (summaries : List TextUnit) (R : ℕ) :
    ℕ → List PackedChunk → List BudgetedChunk
  | _, [] => []
  | k, c :: cs =>
      ⟨k, c.text, if k = 0 then [] else evictOldest R (summaries.take k),
        c.truncated⟩ :: attachContext summaries R (k + 1) cs

/-- Modelled from the spec: `Budgeter.chunk(text, C)` (spec section 4.2).
`units` is the tokenised input at unit granularity, `summaries` the
external per-chunk extraction summaries feeding carried context, `C` the
token ceiling and `R` the reserved context budget. -/
def Budgeter.chunk (units : List TextUnit) (summaries : List TextUnit)
    (C R : ℕ) : List BudgetedChunk :=
  attachContext summaries R 0 (packUnits (C - R) [] units)

/-! ## Fallback Embedder (modelled from the spec) -/

/-- Modelled from the spec: a deterministic, dependency-free hash of a text
(spec section 4.3; `deepseek_embedder.py` is not in the source tree). -/
def fallbackHash (s : String) : ℕ :=
  s.data.foldl (fun h c => (h * 31 + c.toNat) % 1000000007) 7

/-- Modelled from the spec: per-dimension hash of the text concatenated
with a positional salt, mapped into the bounded range `[-1, 1]` as a
rational (spec section 4.3). -/
def rawComponentQ (s : String) (i : ℕ) : ℚ :=
  ((fallbackHash (s ++ toString i) % 2001 : ℕ) : ℚ) / 1000 - 1

/-- The embedding dimension fixed at configuration time (README: 384-dim
vectors). -/
def embedDim : ℕ := 384

/-- The raw (pre-normalisation) fallback embedding vector over ℝ. -/
noncomputable def rawEmbed (s : String) : EuclideanSpace ℝ (Fin embedDim) :=
  fun i => ((rawComponentQ s i.val : ℚ) : ℝ)

/-- Modelled from the spec: `FallbackEmbedder.embed` — the raw hash vector
L2-normalised, or the zero vector when normalisation is undefined at zero
(spec section 4.3). -/
noncomputable def FallbackEmbedder.embed (s : String) :
    EuclideanSpace ℝ (Fin embedDim) :=
  haveI := Classical.dec (rawEmbed s = 0)
  if rawEmbed s = 0 then 0 else ‖rawEmbed s‖⁻¹ • rawEmbed s

/-- The embedding as a list of coordinates, to state the fixed dimension
explicitly. -/
noncomputable def FallbackEmbedder.embedList (s : String) : List ℝ :=
  List.ofFn (FallbackEmbedder.embed s)

/-! ## Theorems -/

lemma applyFileStatus_id (f : UploadFile) (d : FileStatusPayload) :
    (applyFileStatus f d).id = f.id := by
  simp only [applyFileStatus]
  split_ifs <;> rfl

lemma applyFileStatus_idem (f : UploadFile) (d : FileStatusPayload) :
    applyFileStatus (applyFileStatus f d) d = applyFileStatus f d := by
  simp only [applyFileStatus]
  split_ifs <;> rfl

/-- C7: applying the subscriber's stage+progress update handler twice with
the same file-status message yields the same file list as applying it once:
duplicate at-least-once deliveries are absorbed because the update writes
idempotent current-state, not a delta. -/
theorem ws_update_idempotent (files : List UploadFile)
    (d : FileStatusPayload) :
    applyFileStatusMessage (applyFileStatusMessage files d) d =
      applyFileStatusMessage files d := by
  induction files with
  | nil => rfl
  | cons f fs ih =>
      simp only [applyFileStatusMessage]
      by_cases h : f.id = d.file_id
      · simp only [if_pos h, applyFileStatusMessage,
          applyFileStatus_id, if_pos h, applyFileStatus_idem]
      · simp only [if_neg h, applyFileStatusMessage, if_neg h, ih]

/-- C6 counterexample: an update reporting `failed` without a message moves
the record to the Failed status while leaving `errorDetail` absent, so
`errorDetail` present-iff-Failed is violated. -/
theorem ws_errorDetail_counterexample :
    ¬(((applyFileStatus ⟨"f1", "c1", "processing", 50, some "parsing", none⟩
          ⟨"f1", "failed", 60, none, none⟩).error).isSome ↔
      (applyFileStatus ⟨"f1", "c1", "processing", 50, some "parsing", none⟩
          ⟨"f1", "failed", 60, none, none⟩).status = "failed") := by
  decide

/-- C6 (amended): after an update, `errorDetail` is set from the payload
exactly when the update reports `failed` with a non-empty message, and is
otherwise preserved unchanged — hence it can be absent at Failed (empty or
missing message) and can persist after the stage leaves Failed. -/
theorem ws_errorDetail_amended (f : UploadFile) (d : FileStatusPayload) :
    (applyFileStatus f d).error =
      if d.status = "failed" ∧ jsTruthy d.message then d.message
      else f.error := by
  simp only [applyFileStatus]
  split_ifs <;> rfl

/-- Witness for C6 (amended): a failed update carrying the message `boom`
records it as the entry's error detail, and a later `processing` update
without a message leaves that stale error in place. -/
theorem ws_errorDetail_amended_witness :
    ((applyFileStatus ⟨"f1", "c1", "processing", 50, none, none⟩
        ⟨"f1", "failed", 60, none, some "boom"⟩).error = some "boom") ∧
    ((applyFileStatus ⟨"f1", "c1", "failed", 60, none, some "boom"⟩
        ⟨"f1", "processing", 70, none, none⟩).error = some "boom") :=
  ⟨(ws_errorDetail_amended ⟨"f1", "c1", "processing", 50, none, none⟩
      ⟨"f1", "failed", 60, none, some "boom"⟩).trans rfl,
   (ws_errorDetail_amended ⟨"f1", "c1", "failed", 60, none, some "boom"⟩
      ⟨"f1", "processing", 70, none, none⟩).trans rfl⟩

/-- C5 counterexample: cancelling a processing task deletes its record from
the task list outright — the resulting list is empty, no record is retained
at a Failed/cancelled stage. -/
theorem cancelTask_counterexample :
    cancelTask "t1"
        [⟨"t1", "a.pdf", "processing", 40, none, "chunking"⟩] = [] ∧
    ((cancelTask "t1"
        [⟨"t1", "a.pdf", "processing", 40, none, "chunking"⟩]).any
      (fun t => t.status == "failed")) = false := by
  decide

/-- C5 (amended): cancelling removes every entry with the cancelled id from
the client task list and retains every other entry unchanged; the surviving
entries are exactly the untouched originals (no stage change, no rollback of
anything else). -/
theorem cancelTask_amended (taskId : String) (tasks : List ProcessingTask) :
    (∀ t ∈ cancelTask taskId tasks, t.id ≠ taskId) ∧
    (∀ t ∈ tasks, t.id ≠ taskId → t ∈ cancelTask taskId tasks) ∧
    (∀ t ∈ cancelTask taskId tasks, t ∈ tasks) := by
  refine ⟨?_, ?_, ?_⟩
  · intro t ht
    have := List.mem_filter.mp ht
    simpa using this.2
  · intro t ht hne
    exact List.mem_filter.mpr ⟨ht, by simpa using hne⟩
  · intro t ht
    exact (List.mem_filter.mp ht).1

/-- Witness for C5 (amended): cancelling `t1` keeps the unrelated task
`t2` in the list. -/
theorem cancelTask_amended_witness :
    (⟨"t2", "b.pdf", "completed", 100, none, "done"⟩ : ProcessingTask) ∈
      cancelTask "t1"
        [⟨"t1", "a.pdf", "processing", 40, none, "chunking"⟩,
         ⟨"t2", "b.pdf", "completed", 100, none, "done"⟩] :=
  (cancelTask_amended "t1"
      [⟨"t1", "a.pdf", "processing", 40, none, "chunking"⟩,
       ⟨"t2", "b.pdf", "completed", 100, none, "done"⟩]).2.1
    ⟨"t2", "b.pdf", "completed", 100, none, "done"⟩ (by decide) (by decide)

lemma getCurrentFormats_tc :
    getCurrentFormats .training_corpus =
      [⟨"jsonl", "JSONL"⟩, ⟨"csv", "CSV"⟩] := rfl

lemma getCurrentFormats_kg :
    getCurrentFormats .knowledge_graph =
      [⟨"neo4j", "Neo4j Dump"⟩, ⟨"json", "JSON"⟩] := rfl

/-- C10: after the reactive format-reset effect has run, the selected
format is the id of one of the formats offered by the currently selected
export type, or the empty string when that type offers no formats. -/
theorem export_format_reset_valid (t : ExportType) (sf : String) :
    formatResetEffect t sf ∈ (getCurrentFormats t).map ExportFormat.id ∨
      (getCurrentFormats t = [] ∧ formatResetEffect t sf = "") := by
  left
  have hmain : ∀ l : List ExportFormat, l ≠ [] →
      (if l.length > 0 then
        (if !(l.any (fun f => f.id == sf)) then (l.headD ⟨"", ""⟩).id else sf)
       else "") ∈ l.map ExportFormat.id := by
    intro l hl
    rw [if_pos (by cases l with
      | nil => exact absurd rfl hl
      | cons a as => simp)]
    by_cases h : l.any (fun f => f.id == sf)
    · rw [if_neg (by simp [h])]
      rcases List.any_eq_true.mp h with ⟨x, hx, hx2⟩
      have hxid : x.id = sf := by simpa using hx2
      exact hxid ▸ List.mem_map_of_mem ExportFormat.id hx
    · rw [if_pos (by simp [h])]
      cases l with
      | nil => exact absurd rfl hl
      | cons a as => simp
  cases t
  · exact hmain (getCurrentFormats .training_corpus)
      (by rw [getCurrentFormats_tc]; simp)
  · exact hmain (getCurrentFormats .knowledge_graph)
      (by rw [getCurrentFormats_kg]; simp)

/-- C3 counterexample: reprocessing a Completed document through `start`
produces the backward transition Completed→Queued, which is neither strictly
forward, nor a transition to Failed, nor the retry edge Failed→Queued, so
the claim's set of permitted transitions is incomplete. -/
theorem stage_transition_counterexample :
    Tracker.apply (.start "doc1")
        (some ⟨"doc1", .completed, 100, 1, none⟩) =
      .ok ⟨"doc1", .queued, 0, 2, none⟩ ∧
    ¬ claimAllowedTransition .completed .queued :=
  ⟨rfl, by decide⟩

/-- C3 (amended): every successful tracker operation on an existing record
moves the stage strictly forward in the enum order, or to Failed, or
restarts at Queued from a terminal stage — i.e. Failed→Queued on retry and
also Completed→Queued on reprocess; no other backward transition occurs. -/
theorem stage_transition_amended (op : TrackerOp) (r r' : ProcessingRecord)
    (h : Tracker.apply op (some r) = .ok r') :
    r.stage.idx < r'.stage.idx ∨ r'.stage = .failed ∨
      ((r.stage = .failed ∨ r.stage = .completed) ∧ r'.stage = .queued) := by
  cases op with
  | start d =>
      simp only [Tracker.apply, Tracker.start] at h
      split_ifs at h with ht
      right; right
      refine ⟨?_, ?_⟩
      · cases hs : r.stage <;> simp [hs, Stage.isTerminal] at ht <;> simp
      · cases h; rfl
  | advance ts p =>
      simp only [Tracker.apply, Tracker.advance] at h
      split_ifs at h with hc
      obtain ⟨-, h2, -, -⟩ := hc
      cases h
      exact Or.inl h2
  | fail d =>
      simp only [Tracker.apply, Tracker.fail] at h
      split_ifs at h with ht
      cases h
      exact Or.inr (Or.inl rfl)

/-- Witness for C3 (amended): a successful advance from Queued to
Extracting satisfies the amended transition discipline. -/
theorem stage_transition_amended_witness :
    Stage.queued.idx < Stage.extracting.idx ∨ Stage.extracting = .failed ∨
      ((Stage.queued = .failed ∨ Stage.queued = .completed) ∧
        Stage.extracting = .queued) :=
  stage_transition_amended (.advance .extracting 10)
    ⟨"d", .queued, 0, 1, none⟩ ⟨"d", .extracting, 10, 1, none⟩ rfl

/-- C4: after every successful tracker update, progress stays an integer in
0–100 (0 ≤ progress holds by the ℕ embedding) and is non-decreasing while
the attempt counter is unchanged; progress drops only by being reset to 0
when a new attempt starts. -/
theorem progress_invariant (op : TrackerOp) (r r' : ProcessingRecord)
    (h : Tracker.apply op (some r) = .ok r') (hr : r.progress ≤ 100) :
    r'.progress ≤ 100 ∧
    (r'.attempt = r.attempt → r.progress ≤ r'.progress) ∧
    (r'.progress < r.progress →
      r'.progress = 0 ∧ r'.attempt = r.attempt + 1) := by
  cases op with
  | start d =>
      simp only [Tracker.apply, Tracker.start] at h
      split_ifs at h with ht
      cases h
      exact ⟨Nat.zero_le 100,
        fun hat => absurd hat (Nat.succ_ne_self r.attempt),
        fun _ => ⟨rfl, rfl⟩⟩
  | advance ts p =>
      simp only [Tracker.apply, Tracker.advance] at h
      split_ifs at h with hc
      obtain ⟨-, -, h3, h4⟩ := hc
      cases h
      exact ⟨h4, fun _ => h3, fun hlt => absurd hlt (Nat.not_lt.mpr h3)⟩
  | fail d =>
      simp only [Tracker.apply, Tracker.fail] at h
      split_ifs at h with ht
      cases h
      exact ⟨hr, fun _ => le_refl _, fun hlt => absurd hlt (Nat.lt_irrefl _)⟩

/-- Witness for C4: advancing a fresh record to Extracting with progress 10
keeps progress within bounds and non-decreasing in the same attempt. -/
theorem progress_invariant_witness :
    (10 : ℕ) ≤ 100 ∧ ((1 : ℕ) = 1 → (0 : ℕ) ≤ 10) ∧
      ((10 : ℕ) < 0 → (10 : ℕ) = 0 ∧ (1 : ℕ) = 1 + 1) :=
  progress_invariant (.advance .extracting 10) ⟨"d", .queued, 0, 1, none⟩
    ⟨"d", .extracting, 10, 1, none⟩ rfl (by decide)

lemma addFiles_cons (files : List UploadEntry) (f : JSFile)
    (fs : List JSFile) :
    addFiles files (f :: fs) =
      addFiles
        (if !(allowedTypes.contains f.type
              || f.name.toLower.endsWith ".dxf") then files
         else if maxFileSize < f.size then files
         else if files.any (fun e =>
             e.file.name == f.name && e.file.size == f.size) then files
         else files ++ [⟨f, "pending", 0⟩]) fs := rfl

lemma invariant_append (files : List UploadEntry) (f : JSFile)
    (h1 : ∀ e ∈ files, entryOk e) (h2 : noDupFiles files)
    (hty : (allowedTypes.contains f.type
      || f.name.toLower.endsWith ".dxf") = true)
    (hsz : f.size ≤ maxFileSize)
    (hdup : ¬(files.any (fun e =>
      e.file.name == f.name && e.file.size == f.size) = true)) :
    (∀ e ∈ files ++ [⟨f, "pending", 0⟩], entryOk e) ∧
      noDupFiles (files ++ [⟨f, "pending", 0⟩]) := by
  constructor
  · intro e he
    rcases List.mem_append.mp he with h | h
    · exact h1 e h
    · rcases List.mem_singleton.mp h with rfl
      exact ⟨hty, hsz⟩
  · unfold noDupFiles
    rw [List.pairwise_append]
    refine ⟨h2, List.pairwise_singleton _ _, ?_⟩
    intro a ha b hb
    rcases List.mem_singleton.mp hb with rfl
    rintro ⟨hn, hs⟩
    exact hdup (List.any_eq_true.mpr
      ⟨a, ha, by simp [hn, hs]⟩)

lemma addFiles_preserves (newFiles : List JSFile) :
    ∀ files : List UploadEntry,
      (∀ e ∈ files, entryOk e) → noDupFiles files →
      (∀ e ∈ addFiles files newFiles, entryOk e) ∧
        noDupFiles (addFiles files newFiles) := by
  induction newFiles with
  | nil => exact fun files h1 h2 => ⟨h1, h2⟩
  | cons f fs ih =>
      intro files h1 h2
      rw [addFiles_cons]
      by_cases c1 : (allowedTypes.contains f.type
          || f.name.toLower.endsWith ".dxf") = true
      · rw [if_neg (by rw [c1]; decide)]
        by_cases c2 : maxFileSize < f.size
        · rw [if_pos c2]; exact ih files h1 h2
        · rw [if_neg c2]
          by_cases c3 : files.any (fun e =>
              e.file.name == f.name && e.file.size == f.size) = true
          · rw [if_pos c3]; exact ih files h1 h2
          · rw [if_neg c3]
            have hstep := invariant_append files f h1 h2 c1
              (Nat.not_lt.mp c2) c3
            exact ih _ hstep.1 hstep.2
      · rw [if_pos (by rw [Bool.of_not_eq_true c1]; decide)]
        exact ih files h1 h2

lemma addFilesSeq_inv (batches : List (List JSFile)) :
    ∀ files : List UploadEntry,
      (∀ e ∈ files, entryOk e) → noDupFiles files →
      (∀ e ∈ batches.foldl addFiles files, entryOk e) ∧
        noDupFiles (batches.foldl addFiles files) := by
  induction batches with
  | nil => exact fun files h1 h2 => ⟨h1, h2⟩
  | cons b bs ih =>
      intro files h1 h2
      rw [List.foldl_cons]
      have hstep := addFiles_preserves b files h1 h2
      exact ih _ hstep.1 hstep.2

/-- C8: after any sequence of `addFiles` calls starting from the empty
upload list, no two entries carry files with both the same name and the
same size, and every entry's file is within the 50 MB bound and has an
allowed MIME type or a name ending in `.dxf` case-insensitively; violating
files are never added. -/
theorem upload_list_invariant (batches : List (List JSFile)) :
    (∀ e ∈ addFilesSeq batches, entryOk e) ∧
      noDupFiles (addFilesSeq batches) :=
  addFilesSeq_inv batches [] (fun e he => absurd he (List.not_mem_nil e))
    List.Pairwise.nil

/-- Witness for C8: a 100-byte PDF admitted through one `addFiles` batch is
a valid entry of the resulting list. -/
theorem upload_list_invariant_witness :
    entryOk ⟨⟨"a.pdf", 100, "application/pdf"⟩, "pending", 0⟩ :=
  (upload_list_invariant [[⟨"a.pdf", 100, "application/pdf"⟩]]).1
    ⟨⟨"a.pdf", 100, "application/pdf"⟩, "pending", 0⟩ (by decide)

/-- C9 counterexample: at zero bytes the monitor/upload page renders
`0 Bytes` while the graph page renders `0 B`, so the two in-repository
implementations are not equivalent for every byte count. -/
theorem formatFileSize_counterexample :
    formatFileSizeMonitor 0 ≠ formatFileSizeGraph 0 := by decide

lemma sizeUnits_agree (i : ℕ) (hi : 1 ≤ i) :
    sizeUnitsMonitor.getD i "undefined" =
      sizeUnitsGraph.getD i "undefined" := by
  match i, hi with
  | 1, _ => rfl
  | 2, _ => rfl
  | 3, _ => rfl
  | (n + 4), _ =>
      rw [List.getD_eq_default _ _ (by simp [sizeUnitsMonitor]),
        List.getD_eq_default _ _ (by simp [sizeUnitsGraph])]

/-- C9 (amended): the two `formatFileSize` implementations agree exactly on
byte counts of at least 1024 (where the KB/MB/GB unit names coincide); for
every byte count below 1024, including zero, they differ — the monitor page
writes `Bytes` where the graph page writes `B`. -/
theorem formatFileSize_equiv_amended (b : ℕ) :
    (1024 ≤ b → formatFileSizeMonitor b = formatFileSizeGraph b) ∧
    (b < 1024 → formatFileSizeMonitor b ≠ formatFileSizeGraph b) := by
  constructor
  · intro hb
    have hb0 : b ≠ 0 := by omega
    have hlog : 1 ≤ Nat.log 1024 b := Nat.log_pos (by norm_num) hb
    simp only [formatFileSizeMonitor, formatFileSizeGraph, if_neg hb0]
    rw [sizeUnits_agree _ hlog]
  · intro hb
    rcases Nat.eq_zero_or_pos b with h0 | hpos
    · subst h0; decide
    · have hb0 : b ≠ 0 := by omega
      have hlog : Nat.log 1024 b = 0 :=
        Nat.log_eq_zero_iff.mpr (Or.inl hb)
      simp only [formatFileSizeMonitor, formatFileSizeGraph, if_neg hb0,
        hlog]
      intro h
      have hlen := congrArg String.length h
      rw [String.length_append, String.length_append,
        String.length_append, String.length_append] at hlen
      have h5 : ((sizeUnitsMonitor.getD 0 "undefined").length) = 5 := rfl
      have h1 : ((sizeUnitsGraph.getD 0 "undefined").length) = 1 := rfl
      omega

/-- Witness for C9 (amended): the implementations agree at 2048 bytes and
differ at 5 bytes. -/
theorem formatFileSize_equiv_witness :
    formatFileSizeMonitor 2048 = formatFileSizeGraph 2048 ∧
    formatFileSizeMonitor 5 ≠ formatFileSizeGraph 5 :=
  ⟨(formatFileSize_equiv_amended 2048).1 (by decide),
   (formatFileSize_equiv_amended 5).2 (by decide)⟩

lemma packUnits_text_le (B : ℕ) :
    ∀ (us : List TextUnit) (acc : List String), acc.length ≤ B →
      ∀ c ∈ packUnits B acc us, c.text.length ≤ B := by
  intro us
  induction us with
  | nil =>
      intro acc hacc c hc
      by_cases he : acc.isEmpty
      · simp [packUnits, he] at hc
      · simp [packUnits, he] at hc
        subst hc
        exact hacc
  | cons u us ih =>
      intro acc hacc c hc
      simp only [packUnits] at hc
      by_cases h1 : B < u.length
      · rw [if_pos h1] at hc
        rcases List.mem_append.mp hc with hl | hr
        · by_cases he : acc.isEmpty
          · rw [if_pos he] at hl
            simp at hl
          · rw [if_neg he] at hl
            rcases List.mem_singleton.mp hl with rfl
            exact hacc
        · rcases List.mem_cons.mp hr with rfl | hm
          · have htake : (List.take B u).length ≤ B := by
              rw [List.length_take]
              exact min_le_left _ _
            exact htake
          · exact ih [] (Nat.zero_le B) c hm
      · rw [if_neg h1] at hc
        by_cases h2 : B < acc.length + u.length
        · rw [if_pos h2] at hc
          rcases List.mem_cons.mp hc with rfl | hm
          · exact hacc
          · exact ih u (Nat.le_of_not_lt h1) c hm
        · rw [if_neg h2] at hc
          exact ih (acc ++ u)
            (by rw [List.length_append]; exact Nat.le_of_not_lt h2) c hc

lemma evictOldest_le (R : ℕ) : ∀ es : List TextUnit,
    tokensTotal (evictOldest R es) ≤ R := by
  intro es
  induction es with
  | nil => simp [evictOldest, tokensTotal]
  | cons e es ih =>
      simp only [evictOldest]
      split_ifs with h
      · exact ih
      · exact Nat.le_of_not_lt h

lemma attachContext_mem (summaries : List TextUnit) (R : ℕ) :
    ∀ (cs : List PackedChunk) (k : ℕ), ∀ ch ∈ attachContext summaries R k cs,
      (∃ c ∈ cs, ch.text = c.text) ∧ tokensTotal ch.carried ≤ R := by
  intro cs
  induction cs with
  | nil =>
      intro k ch hch
      simp [attachContext] at hch
  | cons c cs ih =>
      intro k ch hch
      simp only [attachContext] at hch
      rcases List.mem_cons.mp hch with rfl | hm
      · refine ⟨⟨c, List.mem_cons_self c cs, rfl⟩, ?_⟩
        by_cases hk : k = 0
        · simp [hk, tokensTotal]
        · simp only [if_neg hk]
          exact evictOldest_le R _
      · obtain ⟨⟨c', hc', ht⟩, hcar⟩ := ih (k + 1) ch hm
        exact ⟨⟨c', List.mem_cons_of_mem c hc', ht⟩, hcar⟩

/-- C1: for every tokenised input, external summary stream, ceiling `C`
and reserved context budget `R ≤ C`, every chunk the Budgeter emits that is
not marked truncated satisfies
`tokenCount(text) + tokenCount(carriedContext) ≤ C`, and the empty input
yields zero chunks. -/
theorem budgeter_chunk_within_ceiling (units summaries : List TextUnit)
    (C R : ℕ) (hRC : R ≤ C) :
    (∀ ch ∈ Budgeter.chunk units summaries C R, ch.truncated = false →
      ch.text.length + tokensTotal ch.carried ≤ C) ∧
    Budgeter.chunk [] summaries C R = [] := by
  constructor
  · intro ch hch _
    obtain ⟨⟨c, hc, htext⟩, hcar⟩ :=
      attachContext_mem summaries R (packUnits (C - R) [] units) 0 ch hch
    have h1 : c.text.length ≤ C - R :=
      packUnits_text_le (C - R) units [] (Nat.zero_le _) c hc
    rw [htext]
    omega
  · rfl

/-- Witness for C1: with two units of sizes 2 and 3, ceiling 4 and reserve
2, the first emitted chunk (tokens `a b`, empty carried context) fits the
ceiling. -/
theorem budgeter_chunk_witness :
    (⟨0, ["a", "b"], [], false⟩ : BudgetedChunk).text.length +
      tokensTotal (⟨0, ["a", "b"], [], false⟩ : BudgetedChunk).carried ≤ 4 :=
  (budgeter_chunk_within_ceiling [["a", "b"], ["c", "d", "e"]]
      [["s1", "s2"]] 4 2 (by decide)).1
    ⟨0, ["a", "b"], [], false⟩ (by decide) rfl

/-- C2: the fallback embedder is deterministic (evaluations of the same
input agree), returns a vector of the configured dimension 384, and its
output is the defined zero vector (exactly when the raw hash vector is
zero) or has L2 norm 1; totality holds by construction of the embedding. -/
theorem fallback_embed_normalized (x : String) :
    FallbackEmbedder.embed x = FallbackEmbedder.embed x ∧
    (FallbackEmbedder.embedList x).length = embedDim ∧
    ((rawEmbed x = 0 ∧ FallbackEmbedder.embed x = 0) ∨
      ‖FallbackEmbedder.embed x‖ = 1) := by
  refine ⟨rfl, ?_, ?_⟩
  · simp only [FallbackEmbedder.embedList]
    exact List.length_ofFn _
  · by_cases h : rawEmbed x = 0
    · refine Or.inl ⟨h, ?_⟩
      simp only [FallbackEmbedder.embed]
      rw [if_pos h]
    · refine Or.inr ?_
      have hemb : FallbackEmbedder.embed x = ‖rawEmbed x‖⁻¹ • rawEmbed x := by
        simp only [FallbackEmbedder.embed]
        rw [if_neg h]
      rw [hemb]
      exact norm_smul_inv_norm (𝕜 := ℝ) h
